import Mathlib

/-!
Verification development for the Lil language front end (lexer,
recursive-descent parser, structural type checker).

The embedding mirrors the Rust sources:
  * `src/lexer.rs`  — tokens and the pull-based scanner,
  * `src/parser.rs` — the parser as it currently stands (method
    declarations are a `todo!` stub and compound-type productions are
    commented out),
  * `src/ast.rs`    — the arena node type and typed index handles,
  * `src/typer.rs`  — the structural type checker,
  * `src/error.rs`  — the checker's error type.

Conventions used throughout:
  * Rust `usize` is modelled as `Nat`; byte offsets coincide with
    character offsets because all inputs of interest are ASCII, so the
    source slice is modelled as a `List Char` indexed by position.
  * A Rust function that can `panic!` / `assert!` / `todo!` is modelled
    with the `Outcome` type below, whose `panic` constructor represents
    an abort (as opposed to `err`, an error value returned to the
    caller).
  * Recursion that walks arena indices (which a malformed arena could
    make cyclic) takes an explicit fuel argument; exhausting the fuel
    models nontermination and is unreachable for the bottom-up arenas
    the parser builds.
-/

namespace Lil

/-- Outcome of running a possibly-panicking, possibly-failing Rust
function: `ok` is `Ok(_)`, `err` is `Err(_)`, and `panic` is an abort
(`panic!`, a failed `assert!`, an `unwrap` failure or a `todo!`). -/
inductive Outcome (ε α : Type) where
  | ok : α → Outcome ε α
  | err : ε → Outcome ε α
  | panic : String → Outcome ε α
deriving DecidableEq

/-- Sequencing of outcomes; models Rust's `?` operator. -/
def obind {ε α β : Type} : Outcome ε α → (α → Outcome ε β) → Outcome ε β
  | .ok a, f => f a
  | .err e, _ => .err e
  | .panic m, _ => .panic m

-- =================================================================
-- Tokens (src/lexer.rs)
-- =================================================================

/-- `TokenType` from src/lexer.rs (the full enumeration, including the
multi-character operator kinds that the scanner never emits). -/
inductive TokenType where
  | Ampersand | AmpersandAmpersand | Assert | Bar | BarBar | Bool
  | Break | Case | Colon | Comma | Continue | Default | Do | Dot
  | Delete | Else | EOF | Equal | EqualEqual | False | For
  | Identifier | If | I8 | I16 | I32 | I64 | Integer | LeftAngle
  | LeftAngleEquals | LeftBrace | LeftCurly | LeftSquare | Minus
  | MinusGreater | New | Null | Percent | Plus | Return | RightAngle
  | RightAndleEquals | RightBrace | RightCurly | RightSlash
  | RightSlashSlash | RightSquare | Shreak | ShreakEquals | SemiColon
  | Skip | Switch | Star | True | Type | While | U8 | U16 | U32 | U64
  | Void
deriving DecidableEq

/-- `Token` from src/lexer.rs: a kind, the start offset within the
input, and the content slice (kept as a `String`). -/
structure Token where
  kind : TokenType
  start : Nat
  content : String
deriving DecidableEq

/-- `usize::MAX`, the start offset of the `EOF` sentinel token. -/
def usizeMax : Nat := 2 ^ 64 - 1

/-- The reserved `EOF` sentinel token (`pub const EOF`). -/
def EOFTok : Token := ⟨TokenType.EOF, usizeMax, ""⟩

/-- `Token::end()`: offset one past the last character of the token. -/
def Token.endPos (t : Token) : Nat := t.start + t.content.length

/-- `Token::as_string()`. -/
def Token.as_string (t : Token) : String := t.content

/-- Numeric value of a decimal digit string (`content.parse` on an
all-digit slice accumulates exactly this value). -/
def digitsToNat (ds : List Char) : Nat :=
  ds.foldl (fun a c => a * 10 + (c.toNat - 48)) 0

/-- Rust `i32::from_str` (`content.parse::<i32>()`): an optional sign
followed by one or more decimal digits, rejecting empty input,
non-digits, and values outside `[-2^31, 2^31 - 1]`.  Rust detects
overflow while folding the digits; for base-10 digit strings the
partial accumulators never exceed the final value, so checking the
final value is equivalent. -/
def parseI32 (s : String) : Option Int :=
  match s.data with
  | [] => none
  | c :: cs =>
    let (neg, ds) :=
      if c = '+' then (false, cs)
      else if c = '-' then (true, cs)
      else (false, c :: cs)
    if ds = [] then none
    else if ds.all Char.isDigit then
      let v : Int := if neg then -(digitsToNat ds : Int) else (digitsToNat ds : Int)
      if -(2 ^ 31) ≤ v ∧ v ≤ 2 ^ 31 - 1 then some v else none
    else none

/-- `Token::as_int()`: asserts the token kind is `Integer`, then
`content.parse::<i32>().unwrap()`.  Both the assertion failure and the
`unwrap` of a parse error are aborts, modelled as `none`. -/
def Token.as_int (t : Token) : Option Int :=
  if t.kind = TokenType.Integer then parseI32 t.content else none

-- =================================================================
-- Character classes and scanning (src/lexer.rs)
-- =================================================================

/-- Rust `char::is_whitespace` (the Unicode `White_Space` property).
Lean's `Char.isWhitespace` covers only four of these characters, so
the full set is spelled out. -/
def isRustWhitespace (c : Char) : Bool :=
  let n := c.toNat
  (9 ≤ n && n ≤ 13) || n = 32 || n = 0x85 || n = 0xA0 || n = 0x1680 ||
  (0x2000 ≤ n && n ≤ 0x200A) || n = 0x2028 || n = 0x2029 ||
  n = 0x202F || n = 0x205F || n = 0x3000

/-- `is_identifier_start`: `c.is_ascii_alphabetic() || c == '_'`
(Lean's `Char.isAlpha` is exactly `is_ascii_alphabetic`). -/
def is_identifier_start (c : Char) : Bool :=
  c.isAlpha || c = '_'

/-- `is_identifier_middle`: `c.is_digit(10) || is_identifier_start(c)`. -/
def is_identifier_middle (c : Char) : Bool :=
  c.isDigit || is_identifier_start c

/-- The keyword table of `scan_identifier_or_keyword`, in source
order.  Note the entry for the literal `"Do"` (capitalised), exactly
as in the source. -/
def keywordKind (content : String) : TokenType :=
  if content = "assert" then .Assert
  else if content = "bool" then .Bool
  else if content = "break" then .Break
  else if content = "case" then .Case
  else if content = "continue" then .Continue
  else if content = "default" then .Default
  else if content = "Do" then .Do
  else if content = "delete" then .Delete
  else if content = "else" then .Else
  else if content = "false" then .False
  else if content = "for" then .For
  else if content = "if" then .If
  else if content = "i8" then .I8
  else if content = "i16" then .I16
  else if content = "i32" then .I32
  else if content = "i64" then .I64
  else if content = "new" then .New
  else if content = "null" then .Null
  else if content = "return" then .Return
  else if content = "skip" then .Skip
  else if content = "switch" then .Switch
  else if content = "true" then .True
  else if content = "type" then .Type
  else if content = "while" then .While
  else if content = "u8" then .U8
  else if content = "u16" then .U16
  else if content = "u32" then .U32
  else if content = "u64" then .U64
  else if content = "void" then .Void
  else .Identifier

/-- Length of the maximal prefix accepted by `pred`; `scan_whilst`
starting at offset `p` leaves the cursor at `p + scanCount pred rest`
where `rest` is the input from `p` on. -/
def scanCount (pred : Char → Bool) : List Char → Nat
  | [] => 0
  | c :: cs => if pred c then scanCount pred cs + 1 else 0

/-- The slice `input[a..b]` of the source. -/
def sliceStr (input : List Char) (a b : Nat) : String :=
  ⟨(input.drop a).take (b - a)⟩

/-- `scan_operator`: single-character punctuation; an unrecognized
character yields the `EOF` constant (the known silent-EOF behaviour). -/
def scanOperatorTok (input : List Char) (start : Nat) (ch : Char) : Token :=
  if ch = '&' then ⟨.Ampersand, start, sliceStr input start (start + 1)⟩
  else if ch = '|' then ⟨.Bar, start, sliceStr input start (start + 1)⟩
  else if ch = ':' then ⟨.Colon, start, sliceStr input start (start + 1)⟩
  else if ch = ',' then ⟨.Comma, start, sliceStr input start (start + 1)⟩
  else if ch = '.' then ⟨.Dot, start, sliceStr input start (start + 1)⟩
  else if ch = '=' then ⟨.Equal, start, sliceStr input start (start + 1)⟩
  else if ch = '<' then ⟨.LeftAngle, start, sliceStr input start (start + 1)⟩
  else if ch = '(' then ⟨.LeftBrace, start, sliceStr input start (start + 1)⟩
  else if ch = '{' then ⟨.LeftCurly, start, sliceStr input start (start + 1)⟩
  else if ch = '[' then ⟨.LeftSquare, start, sliceStr input start (start + 1)⟩
  else if ch = '-' then ⟨.Minus, start, sliceStr input start (start + 1)⟩
  else if ch = '%' then ⟨.Percent, start, sliceStr input start (start + 1)⟩
  else if ch = '+' then ⟨.Plus, start, sliceStr input start (start + 1)⟩
  else if ch = '>' then ⟨.RightAngle, start, sliceStr input start (start + 1)⟩
  else if ch = ')' then ⟨.RightBrace, start, sliceStr input start (start + 1)⟩
  else if ch = '}' then ⟨.RightCurly, start, sliceStr input start (start + 1)⟩
  else if ch = '/' then ⟨.RightSlash, start, sliceStr input start (start + 1)⟩
  else if ch = ']' then ⟨.RightSquare, start, sliceStr input start (start + 1)⟩
  else if ch = ';' then ⟨.SemiColon, start, sliceStr input start (start + 1)⟩
  else if ch = '!' then ⟨.Shreak, start, sliceStr input start (start + 1)⟩
  else if ch = '*' then ⟨.Star, start, sliceStr input start (start + 1)⟩
  else EOFTok

/-- One physical scan starting at `pos` (the lookahead-miss path of
`Lexer::next`): `scan_whitespace`'s recursive restart is flattened
into skipping the maximal whitespace prefix first — exact, because
`scan_whilst` leaves the cursor on the first non-whitespace character,
so the restarted `next` never re-enters the whitespace branch.
Returns the token together with the cursor position afterwards. -/
def nextRaw (input : List Char) (pos : Nat) : Token × Nat :=
  let p := pos + scanCount isRustWhitespace (input.drop pos)
  match (input.drop p).head? with
  | none => (EOFTok, p)
  | some ch =>
    if ch.isDigit then
      -- scan_integer
      let e := p + 1 + scanCount Char.isDigit (input.drop (p + 1))
      (⟨TokenType.Integer, p, sliceStr input p e⟩, e)
    else if is_identifier_start ch then
      -- scan_identifier_or_keyword
      let e := p + 1 + scanCount is_identifier_middle (input.drop (p + 1))
      let content := sliceStr input p e
      (⟨keywordKind content, p, content⟩, e)
    else
      (scanOperatorTok input p ch, p + 1)

/-- `Lexer` state: the input slice, the character-iterator position,
and the cached lookahead. -/
structure Lexer where
  input : List Char
  pos : Nat
  lookahead : Option Token
deriving DecidableEq

/-- `Lexer::new`. -/
def Lexer.new (input : List Char) : Lexer := ⟨input, 0, none⟩

/-- `Lexer::next`: consume the cached lookahead if present, otherwise
physically scan a token. -/
def Lexer.next (l : Lexer) : Token × Lexer :=
  match l.lookahead with
  | some t => (t, { l with lookahead := none })
  | none =>
    let (t, p) := nextRaw l.input l.pos
    (t, { l with pos := p })

/-- `Lexer::peek`: initialise the lookahead from `next` when absent,
then return the cached token without consuming it. -/
def Lexer.peek (l : Lexer) : Token × Lexer :=
  match l.lookahead with
  | some t => (t, l)
  | none =>
    let (t, l2) := l.next
    (t, { l2 with lookahead := some t })

-- =================================================================
-- Abstract syntax tree (src/ast.rs)
-- =================================================================

/-- `Decl` handle: an arena index asserted to denote a declaration. -/
structure Decl where
  index : Nat
deriving DecidableEq

/-- `Stmt` handle. -/
structure Stmt where
  index : Nat
deriving DecidableEq

/-- `Expr` handle. -/
structure Expr where
  index : Nat
deriving DecidableEq

/-- `Type` handle from src/ast.rs (named `Ty` here because `Type` is a
Lean keyword). -/
structure Ty where
  index : Nat
deriving DecidableEq

/-- `Name` handle: index of a `Utf8` node. -/
structure Name where
  index : Nat
deriving DecidableEq

/-- `Parameter` from src/ast.rs. -/
structure Parameter where
  declared : Ty
  name : Name
deriving DecidableEq

/-- `Node` from src/ast.rs: the tagged arena node. -/
inductive Node where
  | Utf8 : String → Node
  | TypeDecl : Name → Ty → Node
  | MethodDecl : Name → Ty → List Parameter → Stmt → Node
  | AssertStmt : Expr → Node
  | BlockStmt : List Stmt → Node
  | SkipStmt : Node
  | BoolExpr : Bool → Node
  | EqualsExpr : Expr → Expr → Node
  | NotEqualsExpr : Expr → Expr → Node
  | LessThanExpr : Expr → Expr → Node
  | IntExpr : Int → Node
  | VarExpr : Name → Node
  | ArrayType : Ty → Node
  | BoolType : Node
  | IntType : Bool → Nat → Node
  | NullType : Node
  | RecordType : List (Ty × Name) → Node
  | ReferenceType : Ty → Node
  | VoidType : Node
deriving DecidableEq

/-- The syntax arena (`SyntacticHeap<Node>`): an append-only store
addressed by push order. -/
abbrev AST : Type := List Node

/-- `SyntacticHeap::get`; `none` models the out-of-range panic. -/
def getNode (ast : AST) (i : Nat) : Option Node := ast.get? i

/-- The field loop of `Type::is` on record types, abstracted over the
recursive check so that `TypeIs` is structural on its fuel. -/
def allFieldTypes (chk : Node → Bool) (ast : AST) : List (Ty × Name) → Bool
  | [] => true
  | (t, _) :: rest =>
    (match getNode ast t.index with
     | some m => chk m
     | none => false) && allFieldTypes chk ast rest

/-- `Type::is`: the recursive category predicate for type nodes.  The
recursion follows arena indices, so it takes fuel; a dangling index or
exhausted fuel yields `false` (the Rust code would panic or diverge,
which is equally fatal for the `assert!` in `Type::new`). -/
def TypeIs : Nat → AST → Node → Bool
  | 0, _, _ => false
  | fuel + 1, ast, n =>
    match n with
    | .BoolType => true
    | .IntType _ _ => true
    | .NullType => true
    | .VoidType => true
    | .ArrayType t =>
      match getNode ast t.index with
      | some m => TypeIs fuel ast m
      | none => false
    | .ReferenceType t =>
      match getNode ast t.index with
      | some m => TypeIs fuel ast m
      | none => false
    | .RecordType fs => allFieldTypes (fun m => TypeIs fuel ast m) ast fs
    | _ => false

-- =================================================================
-- Checker errors (src/error.rs)
-- =================================================================

/-- `ErrorCode` from src/error.rs. -/
inductive ErrorCode where
  | InternalFailure : String → ErrorCode
  | ExpectedSubtype : ErrorCode
  | VariableNotFound : ErrorCode
deriving DecidableEq

/-- `SyntaxError` from src/error.rs. -/
structure SyntaxError where
  node : Nat
  errno : ErrorCode
deriving DecidableEq

/-- `internal_failure`. -/
def internal_failure (node : Nat) (msg : String) : SyntaxError :=
  ⟨node, ErrorCode.InternalFailure msg⟩

/-- `expected_subtype`. -/
def expected_subtype (node : Nat) : SyntaxError :=
  ⟨node, ErrorCode.ExpectedSubtype⟩

/-- `variable_not_found`. -/
def variable_not_found (node : Nat) : SyntaxError :=
  ⟨node, ErrorCode.VariableNotFound⟩

-- =================================================================
-- Type checker (src/typer.rs)
-- =================================================================

/-- `Env = HashMap<String, Type>`, modelled as a finite map by value:
cloning a `HashMap` is the identity on this representation. -/
def Env : Type := String → Option Ty

/-- The empty environment (`HashMap::new`). -/
def Env.empty : Env := fun _ => none

/-- `HashMap::insert` (later insertions overwrite earlier ones). -/
def Env.insert (e : Env) (k : String) (v : Ty) : Env :=
  fun x => if x = k then some v else e x

/-- `HashMap::get`. -/
def Env.find (e : Env) (k : String) : Option Ty := e k

/-- The mutable state of `TypeChecker`: the arena (which the checker
extends with freshly pushed type nodes) and the global environment.
The `mapper` callback records inferred types on the side and plays no
role in the checking algorithm. -/
structure TCState where
  ast : AST
  globals : Env

/-- Result of a checker function that takes `&mut self`.  An `Ok` or
`Err` return leaves the mutated checker alive, so both carry the
surviving state alongside the value; a panic aborts the process, so no
state survives it. -/
inductive CheckResult (α : Type) where
  | ok : α → TCState → CheckResult α
  | err : SyntaxError → TCState → CheckResult α
  | panic : String → CheckResult α

/-- Sequencing of stateful checker calls; models Rust's `?` on a
`&mut self` method: an `Err` propagates together with the checker
state as already mutated. -/
def cbind {α β : Type} : CheckResult α → (α → TCState → CheckResult β) → CheckResult β
  | .ok a st, f => f a st
  | .err e st, _ => .err e st
  | .panic m, _ => .panic m

/-- The checker state surviving a return: present for `Ok` and `Err`
returns, absent for a panic. -/
def CheckResult.stateOf? {α : Type} : CheckResult α → Option TCState
  | .ok _ st => some st
  | .err _ st => some st
  | .panic _ => none

/-- `Type::new(ast, t)`: `assert!(Type::is(ast, t))`, then push.  The
fuel handed to `TypeIs` is one more than the arena size, enough for
any bottom-up arena. -/
def Ty.new (st : TCState) (n : Node) : CheckResult Ty :=
  if TypeIs (st.ast.length + 1) st.ast n then
    .ok ⟨st.ast.length⟩ { st with ast := st.ast ++ [n] }
  else
    .panic "assertion failed: Type::is"

/-- `TypeChecker::check_variable_access` (takes `&self`: no state is
threaded).  The absent-binding branch is `panic!("variable not
found")` in the source. -/
def check_variable_access (env : Env) (name : String) : Outcome SyntaxError Ty :=
  match Env.find env name with
  | some t => .ok t
  | none => .panic "variable not found"

/-- `TypeChecker::check_bool_type` (`&self`).  The non-boolean branch
is `panic!("error, expected boolean")` in the source. -/
def check_bool_type (st : TCState) (t : Ty) : Outcome SyntaxError Unit :=
  match getNode st.ast t.index with
  | some .BoolType => .ok ()
  | some _ => .panic "error, expected boolean"
  | none => .panic "index out of bounds"

/-- `TypeChecker::check_int_type` (`&self`). -/
def check_int_type (st : TCState) (t : Ty) : Outcome SyntaxError Unit :=
  match getNode st.ast t.index with
  | some (.IntType _ _) => .ok ()
  | some _ => .panic "error, expected integer"
  | none => .panic "index out of bounds"

/-- `TypeChecker::check_matching_types` (`&self`): structural equality
by recursion through the arena.  There is no `RecordType` case in the
source; records — like every non-identical pair — fall into the
`panic!("do something")` catch-all. -/
def check_matching_types : Nat → TCState → Ty → Ty → Outcome SyntaxError Unit
  | 0, _, _, _ => .panic "recursion fuel exhausted"
  | fuel + 1, st, t1, t2 =>
    match getNode st.ast t1.index, getNode st.ast t2.index with
    | some n1, some n2 =>
      match n1, n2 with
      | .BoolType, .BoolType => .ok ()
      | .NullType, .NullType => .ok ()
      | .IntType b1 w1, .IntType b2 w2 =>
        if b1 = b2 ∧ w1 = w2 then .ok () else .panic "do something"
      | .VoidType, .VoidType => .ok ()
      | .ArrayType e1, .ArrayType e2 => check_matching_types fuel st e1 e2
      | .ReferenceType e1, .ReferenceType e2 => check_matching_types fuel st e1 e2
      | _, _ => .panic "do something"
    | _, _ => .panic "index out of bounds"

/-- `TypeChecker::check_boolean_literal`. -/
def check_boolean_literal (st : TCState) (_env : Env) (_literal : Bool) :
    CheckResult Ty :=
  Ty.new st Node.BoolType

/-- `TypeChecker::check_integer_literal`: every integer literal is
conservatively typed `i32`. -/
def check_integer_literal (st : TCState) (_env : Env) (_literal : Int) :
    CheckResult Ty :=
  Ty.new st (Node.IntType true 32)

/-- Lift the `Err`/panic of a pure (`&self`) call into the stateful
world: an `Err` propagates alongside the current checker state. -/
def liftCheck {α β : Type} (x : Outcome SyntaxError α) (st : TCState)
    (f : α → CheckResult β) : CheckResult β :=
  match x with
  | .ok a => f a
  | .err e => .err e st
  | .panic m => .panic m

/-- `TypeChecker::check_expr`.  The `LessThanExpr` arm inlines
`check_lessthan_comparator` (defined separately below) so that the
mutual recursion is structural on the fuel.  The source passes the
`VarExpr` payload to `check_variable_access`, which is keyed by the
identifier string; the `Name` handle is resolved through its `Utf8`
node accordingly. -/
def check_expr : Nat → TCState → Env → Expr → CheckResult Ty
  | 0, _, _, _ => .panic "recursion fuel exhausted"
  | fuel + 1, st, env, e =>
    match getNode st.ast e.index with
    | some (.BoolExpr lit) => check_boolean_literal st env lit
    | some (.IntExpr lit) => check_integer_literal st env lit
    | some (.LessThanExpr lhs rhs) =>
      cbind (check_expr fuel st env lhs) fun lhs_t st1 =>
      cbind (check_expr fuel st1 env rhs) fun rhs_t st2 =>
      liftCheck (check_int_type st2 lhs_t) st2 fun _ =>
      liftCheck (check_matching_types fuel st2 lhs_t rhs_t) st2 fun _ =>
      Ty.new st2 Node.BoolType
    | some (.VarExpr name) =>
      match getNode st.ast name.index with
      | some (.Utf8 s) =>
        liftCheck (check_variable_access env s) st fun t => .ok t st
      | _ => .panic "invalid name handle"
    | some _ => .err (internal_failure e.index "unknown expression") st
    | none => .panic "index out of bounds"

/-- `TypeChecker::check_lessthan_comparator` (the body inlined in the
`LessThanExpr` arm of `check_expr` above). -/
def check_lessthan_comparator (fuel : Nat) (st : TCState) (env : Env)
    (lhs rhs : Expr) : CheckResult Ty :=
  cbind (check_expr fuel st env lhs) fun lhs_t st1 =>
  cbind (check_expr fuel st1 env rhs) fun rhs_t st2 =>
  liftCheck (check_int_type st2 lhs_t) st2 fun _ =>
  liftCheck (check_matching_types fuel st2 lhs_t rhs_t) st2 fun _ =>
  Ty.new st2 Node.BoolType

/-- `TypeChecker::check_assert`. -/
def check_assert (fuel : Nat) (st : TCState) (env : Env) (cond : Expr) :
    CheckResult Unit :=
  cbind (check_expr fuel st env cond) fun t st1 =>
  liftCheck (check_bool_type st1 t) st1 fun _ =>
  .ok () st1

/-- `TypeChecker::check_skip` (`&self`). -/
def check_skip (_st : TCState) (_env : Env) : Outcome SyntaxError Unit :=
  .ok ()

/-- The statement loop of `check_block`, abstracted over the
statement-checking function so that the `check_stmt`/`check_block`
mutual recursion below is structural on the fuel. -/
def runBlock (chk : TCState → Stmt → CheckResult Unit) :
    TCState → List Stmt → CheckResult Unit
  | st, [] => .ok () st
  | st, s :: rest =>
    cbind (chk st s) fun _ st1 => runBlock chk st1 rest

/-- `TypeChecker::check_stmt`.  The `BlockStmt` arm is
`check_block` (defined just below) with the loop expanded through
`runBlock`. -/
def check_stmt : Nat → TCState → Env → Stmt → CheckResult Unit
  | 0, _, _, _ => .panic "recursion fuel exhausted"
  | fuel + 1, st, env, s =>
    match getNode st.ast s.index with
    | some (.AssertStmt cond) => check_assert fuel st env cond
    | some (.BlockStmt stmts) =>
      runBlock (fun st1 s1 => check_stmt fuel st1 env s1) st stmts
    | some .SkipStmt =>
      liftCheck (check_skip st env) st fun _ => .ok () st
    | some _ => .err (internal_failure 0 "unknown statement") st
    | none => .panic "index out of bounds"

/-- `TypeChecker::check_block`. -/
def check_block (fuel : Nat) (st : TCState) (env : Env) (stmts : List Stmt) :
    CheckResult Unit :=
  runBlock (fun st1 s1 => check_stmt fuel st1 env s1) st stmts

/-- The parameter loop of `check_method`:
`for p in params { env.insert(p.name.clone(), p.declared); }`.
`Env` is keyed by the identifier string (`Env = HashMap<String, _>`),
so each `Name` handle is resolved through its `Utf8` node. -/
def bind_params (ast : AST) : Env → List Parameter → Outcome SyntaxError Env
  | env, [] => .ok env
  | env, p :: rest =>
    match getNode ast p.name.index with
    | some (.Utf8 s) => bind_params ast (Env.insert env s p.declared) rest
    | _ => .panic "invalid name handle"

/-- `TypeChecker::check_method`: clone the global environment, bind
the parameters in the clone, then check the body under it.  The
method's name and return type are received but not used (as in the
source). -/
def check_method (fuel : Nat) (st : TCState) (_name : Name) (_ret : Ty)
    (params : List Parameter) (body : Stmt) : CheckResult Unit :=
  liftCheck (bind_params st.ast st.globals params) st fun env =>
  cbind (check_stmt fuel st env body) fun _ st1 =>
  .ok () st1

/-- `TypeChecker::check_type` (`&self`): well-formedness of a declared
type, by recursion through the arena. -/
def check_type : Nat → TCState → Ty → Outcome SyntaxError Unit
  | 0, _, _ => .panic "recursion fuel exhausted"
  | fuel + 1, st, t =>
    match getNode st.ast t.index with
    | some .BoolType => .ok ()
    | some .NullType => .ok ()
    | some (.IntType _ _) => .ok ()
    | some .VoidType => .ok ()
    | some (.ArrayType bt) => check_type fuel st bt
    | some (.ReferenceType bt) => check_type fuel st bt
    | some (.RecordType fields) =>
      (fields.map Prod.fst).foldr (fun ft acc => obind (check_type fuel st ft) fun _ => acc)
        (.ok ())
    | some _ => .panic "do something"
    | none => .panic "index out of bounds"

/-- `TypeChecker::check_type_alias`: sanity-check the aliased type
(the `alias` argument of the source); no binding is produced. -/
def check_type_alias (fuel : Nat) (st : TCState) (_name : Name) (aliased : Ty) :
    Outcome SyntaxError Unit :=
  obind (check_type fuel st aliased) fun _ => .ok ()

/-- `TypeChecker::check`: dispatch on the declaration node. -/
def check (fuel : Nat) (st : TCState) (d : Decl) : CheckResult Unit :=
  match getNode st.ast d.index with
  | some (.TypeDecl name aliased) =>
    liftCheck (check_type_alias fuel st name aliased) st fun _ => .ok () st
  | some (.MethodDecl name ret params body) =>
    check_method fuel st name ret params body
  | some _ => .err (internal_failure 0 "unknown declaration") st
  | none => .panic "index out of bounds"

-- =================================================================
-- Parser (src/parser.rs, current state of the source)
-- =================================================================

/-- Parse `Error` from src/parser.rs: start/end byte offsets of the
offending token plus a fixed diagnostic string.  (The `end` field is
named `endPos` because `end` is a Lean keyword.) -/
structure PError where
  start : Nat
  endPos : Nat
  message : String
deriving DecidableEq

/-- `Error::new(tok, message)`. -/
def PError.new (tok : Token) (message : String) : PError :=
  ⟨tok.start, tok.endPos, message⟩

/-- The node type the current parser.rs pushes.  parser.rs targets an
older arena API than src/ast.rs (`push(node, children)` with the node
variants named `DeclType`/`TypeBool`/`TypeInt`/…), so its nodes are
modelled separately from the checker's `Node`. -/
inductive PNode where
  | DeclType : String → PNode
  | TypeNull : PNode
  | TypeBool : PNode
  | TypeInt : Bool → Nat → PNode
  | TypeVoid : PNode
deriving DecidableEq

/-- Parser state: the lexer plus the arena of pushed nodes, each with
its `&[usize]` child-index array (`NO_CHILDREN = []`).  The source-map
callback is never invoked by the current parser.rs, so it is omitted. -/
structure ParserState where
  lexer : Lexer
  ast : List (PNode × List Nat)
deriving DecidableEq

/-- `Parser::new`. -/
def ParserState.new (input : List Char) : ParserState :=
  ⟨Lexer.new input, []⟩

/-- `Parser::snap`: peek at the next token; consume it only when its
kind matches, otherwise return an error and leave the stream where it
was.  As in Rust, the mutated parser survives an error, so the state
is returned alongside the `Except`. -/
def ParserState.snap (p : ParserState) (kind : TokenType) :
    Except PError Token × ParserState :=
  let (lookahead, l1) := p.lexer.peek
  if lookahead.kind = kind then
    let (_, l2) := l1.next
    (Except.ok lookahead, { p with lexer := l2 })
  else
    (Except.error (PError.new lookahead "expected one thing, found another"),
     { p with lexer := l1 })

/-- `Parser::parse_identifier`. -/
def ParserState.parse_identifier (p : ParserState) :
    Except PError String × ParserState :=
  match p.snap TokenType.Identifier with
  | (Except.ok tok, p1) => (Except.ok tok.as_string, p1)
  | (Except.error e, p1) => (Except.error e, p1)

/-- Push of a childless base-type node followed by `self.lexer.next()`,
shared by every arm of `parse_type_base`. -/
def ParserState.pushBase (p : ParserState) (n : PNode) :
    Outcome PError (Ty × ParserState) :=
  let index := p.ast.length
  let p1 := { p with ast := p.ast ++ [(n, [])] }
  let (_, l2) := p1.lexer.next
  .ok (⟨index⟩, { p1 with lexer := l2 })

/-- `Parser::parse_type_base`. -/
def ParserState.parse_type_base (p : ParserState) :
    Outcome PError (Ty × ParserState) :=
  let (lookahead, l1) := p.lexer.peek
  let p1 := { p with lexer := l1 }
  match lookahead.kind with
  | .Null => p1.pushBase PNode.TypeNull
  | .Bool => p1.pushBase PNode.TypeBool
  | .I8 => p1.pushBase (PNode.TypeInt true 8)
  | .I16 => p1.pushBase (PNode.TypeInt true 16)
  | .I32 => p1.pushBase (PNode.TypeInt true 32)
  | .I64 => p1.pushBase (PNode.TypeInt true 64)
  | .U8 => p1.pushBase (PNode.TypeInt false 8)
  | .U16 => p1.pushBase (PNode.TypeInt false 16)
  | .U32 => p1.pushBase (PNode.TypeInt false 32)
  | .U64 => p1.pushBase (PNode.TypeInt false 64)
  | .Void => p1.pushBase PNode.TypeVoid
  | _ => .err (PError.new lookahead "unknown token encountered")

/-- `Parser::parse_type_compound`: in the current source the
reference-, record- and array-type branches are commented out, so
everything that is not end-of-file falls through to
`parse_type_base`. -/
def ParserState.parse_type_compound (p : ParserState) :
    Outcome PError (Ty × ParserState) :=
  let (lookahead, l1) := p.lexer.peek
  let p1 := { p with lexer := l1 }
  match lookahead.kind with
  | .EOF => .err (PError.new lookahead "unexpected end-of-file")
  | _ => p1.parse_type_base

/-- `Parser::parse_type`. -/
def ParserState.parse_type (p : ParserState) : Outcome PError (Ty × ParserState) :=
  p.parse_type_compound

/-- `Parser::parse_decl_type`: `'type' ident '=' type ';'`. -/
def ParserState.parse_decl_type (p : ParserState) :
    Outcome PError (Decl × ParserState) :=
  match p.snap TokenType.Type with
  | (Except.error e, _) => .err e
  | (Except.ok start, p1) =>
    match p1.parse_identifier with
    | (Except.error e, _) => .err e
    | (Except.ok name, p2) =>
      match p2.snap TokenType.Equal with
      | (Except.error e, _) => .err e
      | (Except.ok _, p3) =>
        match p3.parse_type with
        | .err e => .err e
        | .panic m => .panic m
        | .ok (typ_e, p4) =>
          match p4.snap TokenType.SemiColon with
          | (Except.error e, _) => .err e
          | (Except.ok endTok, p5) =>
            -- the slice input[start.start .. end.end()] is computed
            -- for the (commented-out) source map and otherwise unused
            let _slice := sliceStr p5.lexer.input start.start endTok.endPos
            let index := p5.ast.length
            let p6 := { p5 with ast := p5.ast ++ [(PNode.DeclType name, [typ_e.index])] }
            .ok (⟨index⟩, p6)

/-- `Parser::parse_decl_method`: `todo!("reinstate me")` in the
current source — every call aborts. -/
def ParserState.parse_decl_method (_p : ParserState) :
    Outcome PError (Decl × ParserState) :=
  .panic "not yet implemented: reinstate me"

/-- `Parser::parse_decl`: a `type` token starts a type declaration;
anything else is handed to `parse_decl_method`. -/
def ParserState.parse_decl (p : ParserState) :
    Outcome PError (Decl × ParserState) :=
  let (lookahead, l1) := p.lexer.peek
  let p1 := { p with lexer := l1 }
  match lookahead.kind with
  | .Type => p1.parse_decl_type
  | _ => p1.parse_decl_method

-- =================================================================
-- Concrete arenas used to evaluate the checker
-- =================================================================

/-- The arena for the accepted method `void f(bool b){ assert b; }`,
laid out exactly as the repository's own test suite does
(tests/micro.rs, `test_assert_11`). -/
def acceptedMethodAst : AST :=
  [Node.VoidType, Node.Utf8 "f", Node.BoolType, Node.Utf8 "b", Node.Utf8 "b",
   Node.VarExpr ⟨4⟩, Node.AssertStmt ⟨5⟩, Node.BlockStmt [⟨6⟩],
   Node.MethodDecl ⟨1⟩ ⟨0⟩ [⟨⟨2⟩, ⟨3⟩⟩] ⟨7⟩]

/-- The arena for the body of `void f(){ assert b; }`: a variable
reference to the unbound name `b`. -/
def unboundVarAst : AST :=
  [Node.Utf8 "b", Node.VarExpr ⟨0⟩, Node.BoolType]

/-- The arena for `assert 1;` — an assertion over the integer
literal `1` (the body of `void f(){ assert 1; }`). -/
def assertIntAst : AST :=
  [Node.IntExpr 1, Node.AssertStmt ⟨0⟩]

/-- The arena for `assert true;`. -/
def assertTrueAst : AST :=
  [Node.BoolExpr true, Node.AssertStmt ⟨0⟩]

/-- An arena holding two structurally identical record types
`{i64 f}` at indices 2 and 5. -/
def twinRecordsAst : AST :=
  [Node.IntType true 64, Node.Utf8 "f", Node.RecordType [(⟨0⟩, ⟨1⟩)],
   Node.IntType true 64, Node.Utf8 "f", Node.RecordType [(⟨3⟩, ⟨4⟩)]]

/-- An arena holding two structurally identical array types
`bool[]` at indices 1 and 3. -/
def twinArraysAst : AST :=
  [Node.BoolType, Node.ArrayType ⟨0⟩, Node.BoolType, Node.ArrayType ⟨2⟩]

/-- The arena for the method `void f(){ assert true; }` (the body
pushes one fresh `BoolType` node while checking). -/
def assertTrueMethodAst : AST :=
  [Node.VoidType, Node.Utf8 "f", Node.BoolExpr true, Node.AssertStmt ⟨2⟩,
   Node.BlockStmt [⟨3⟩], Node.MethodDecl ⟨1⟩ ⟨0⟩ [] ⟨4⟩]

/-- The arena for a method whose body block first checks `assert
true;` (pushing a fresh `BoolType` node) and then reaches a node that
is not a statement, so `check_method` returns an *error* after having
mutated the arena. -/
def errBodyMethodAst : AST :=
  [Node.Utf8 "f", Node.VoidType, Node.BoolExpr true, Node.AssertStmt ⟨2⟩,
   Node.BlockStmt [⟨3⟩, ⟨1⟩], Node.MethodDecl ⟨0⟩ ⟨1⟩ [] ⟨4⟩]

-- =================================================================
-- Specification-side definitions (for claims compared against the
-- spec's wording, never used by the source embedding above)
-- =================================================================

/-- The keyword list exactly as the specification enumerates it
(§4.1): 28 words, without the capitalised `"Do"` that the scanner also
recognises. -/
def claimedKeywords : List String :=
  ["assert", "bool", "break", "case", "continue", "default", "delete",
   "else", "false", "for", "if", "i8", "i16", "i32", "i64", "new",
   "null", "return", "skip", "switch", "true", "type", "while",
   "u8", "u16", "u32", "u64", "void"]

/-- The amended keyword table: the specification's table together with
the capitalised `"Do"` entry, each word paired with the token kind the
scanner emits for it.  Listed in the source's match order. -/
def amendedKeywordTable : List (String × TokenType) :=
  [("assert", .Assert), ("bool", .Bool), ("break", .Break),
   ("case", .Case), ("continue", .Continue), ("default", .Default),
   ("Do", .Do), ("delete", .Delete), ("else", .Else),
   ("false", .False), ("for", .For), ("if", .If), ("i8", .I8),
   ("i16", .I16), ("i32", .I32), ("i64", .I64), ("new", .New),
   ("null", .Null), ("return", .Return), ("skip", .Skip),
   ("switch", .Switch), ("true", .True), ("type", .Type),
   ("while", .While), ("u8", .U8), ("u16", .U16), ("u32", .U32),
   ("u64", .U64), ("void", .Void)]

/-- Table lookup as the specification reads: the keyword's token kind
when the word is in the table, `Identifier` otherwise. -/
def kwLookup (table : List (String × TokenType)) (w : String) : TokenType :=
  ((table.find? fun kv => w == kv.1).map Prod.snd).getD .Identifier

/-- First-match chain over an association table; with a concrete table
this unfolds to exactly the equality chain a Rust `match` on `&str`
performs. -/
def kwChain : List (String × TokenType) → String → TokenType
  | [], _ => .Identifier
  | (s, k) :: tl, w => if w = s then k else kwChain tl w

/-- A maximal identifier/keyword run: nonempty, starting with a letter
or underscore, continuing with letters, digits or underscores. -/
def isIdentifierRun (w : String) : Bool :=
  match w.data with
  | [] => false
  | c :: cs => is_identifier_start c && cs.all is_identifier_middle

-- =================================================================
-- Theorems
-- =================================================================

/-- C1: The claim is that parsing `"void f(bool b){ assert b; }"`
with `parse_decl` succeeds with a `MethodDecl` and that
`TypeChecker::check` then succeeds on it.  In the current source,
`parse_decl` routes every non-`type` declaration to
`parse_decl_method`, which is `todo!("reinstate me")` — the parse
aborts instead of succeeding (contradicting tests/micro.rs,
`test_assert_11`).  The checker half of the claim does hold: `check`
succeeds on the very arena those tests expect the parse to build. -/
theorem c1_method_parse_aborts_check_succeeds :
    (ParserState.new "void f(bool b){ assert b; }".data).parse_decl
      = .panic "not yet implemented: reinstate me"
    ∧ check 10 ⟨acceptedMethodAst, Env.empty⟩ ⟨8⟩
      = .ok () ⟨acceptedMethodAst, Env.empty⟩ :=
  ⟨rfl, rfl⟩

/-- C2: The claim is that checking `VarExpr(name)` with `name` unbound
returns a `VariableNotFound` syntax error and never aborts.  The
source's `check_variable_access` instead hits `panic!("variable not
found")` on the unbound case; the bound case does return the bound
type as claimed. -/
theorem c2_unbound_variable_panics :
    check_variable_access Env.empty "b" = .panic "variable not found"
    ∧ check_expr 5 ⟨unboundVarAst, Env.empty⟩ Env.empty ⟨1⟩
      = .panic "variable not found"
    ∧ check_variable_access (Env.insert Env.empty "b" ⟨2⟩) "b" = .ok ⟨2⟩
    ∧ check_expr 5 ⟨unboundVarAst, Env.empty⟩ (Env.insert Env.empty "b" ⟨2⟩) ⟨1⟩
      = .ok ⟨2⟩ ⟨unboundVarAst, Env.empty⟩ :=
  ⟨rfl, rfl, rfl, rfl⟩

/-- C3: The claim is that `parse_type` on a reference-type source such
as `"&&i16"` succeeds with nested `ReferenceType` nodes.  In the
current source the reference branch of `parse_type_compound` is
commented out, so the leading `&` falls through to `parse_type_base`
and the parse fails with "unknown token encountered" (contradicting
tests/micro.rs, `test_type_14`/`test_type_15`). -/
theorem c3_reference_type_parse_fails :
    (ParserState.new "&&i16".data).parse_type
      = .err ⟨0, 1, "unknown token encountered"⟩
    ∧ (ParserState.new "type ref = &&i16;".data).parse_decl
      = .err ⟨11, 12, "unknown token encountered"⟩ :=
  ⟨rfl, rfl⟩

/-- C4: The claim is that `check_matching_types` returns an error
result on every structurally distinct pair and recurses into record
fields.  The source instead hits the `panic!("do something")`
catch-all on every distinct pair, and — having no `RecordType` case —
on every pair of records, identical or not.  Identical primitive,
array and reference types do succeed. -/
theorem c4_matching_types_catch_all_panics :
    check_matching_types 9 ⟨[Node.BoolType, Node.IntType true 32], Env.empty⟩ ⟨0⟩ ⟨1⟩
      = .panic "do something"
    ∧ check_matching_types 9 ⟨[Node.IntType true 32, Node.IntType true 64], Env.empty⟩ ⟨0⟩ ⟨1⟩
      = .panic "do something"
    ∧ check_matching_types 9 ⟨twinRecordsAst, Env.empty⟩ ⟨2⟩ ⟨5⟩
      = .panic "do something"
    ∧ check_matching_types 9 ⟨twinArraysAst, Env.empty⟩ ⟨1⟩ ⟨3⟩ = .ok () :=
  ⟨rfl, rfl, rfl, rfl⟩

/-- C5: The claim is that checking an `AssertStmt` whose condition is
not boolean fails with a boolean-type-mismatch error result.  The
source's `check_bool_type` instead hits `panic!("error, expected
boolean")` on the integer-literal condition of `assert 1;`; a boolean
condition succeeds as claimed. -/
theorem c5_assert_non_bool_panics :
    check_stmt 5 ⟨assertIntAst, Env.empty⟩ Env.empty ⟨1⟩
      = .panic "error, expected boolean"
    ∧ check_stmt 5 ⟨assertTrueAst, Env.empty⟩ Env.empty ⟨1⟩
      = .ok () ⟨assertTrueAst ++ [Node.BoolType], Env.empty⟩ :=
  ⟨rfl, rfl⟩

/-- After a `peek`, the lookahead cache holds exactly the peeked
token. -/
theorem peek_lookahead (l : Lexer) :
    (l.peek.2).lookahead = some l.peek.1 := by
  obtain ⟨inp, pos, la⟩ := l
  cases la <;> simp [Lexer.peek, Lexer.next]

/-- C7: `Lexer::peek` is idempotent: peeking again returns the same
token and leaves the state unchanged, and a `peek` followed by `next`
yields exactly what a plain `next` would have (the peeked token), so
`peek` never advances the stream. -/
theorem c7_peek_idempotent (l : Lexer) :
    (l.peek.2).peek = l.peek
    ∧ ((l.peek.2).next).1 = l.peek.1
    ∧ (l.peek.2).next = l.next := by
  obtain ⟨inp, pos, la⟩ := l
  cases la <;> simp [Lexer.peek, Lexer.next]

/-- A lexer whose lookahead cache is filled returns the cached token
from both `peek` and `next`. -/
theorem peek_next_of_lookahead (l : Lexer) (t : Token)
    (h : l.lookahead = some t) :
    l.peek = (t, l) ∧ l.next = (t, { l with lookahead := none }) := by
  obtain ⟨inp, pos, la⟩ := l
  cases h
  simp [Lexer.peek, Lexer.next]

/-- C6: `Parser::snap` saves a token of the requested kind and
consumes it; on any other token it returns an error and does not
consume — the same token is still delivered by the following `peek` or
`next`, so a caller can retry a different alternative at the same
position. -/
theorem c6_snap_peeks_before_consuming (p : ParserState) (k : TokenType) :
    ((p.lexer.peek).1.kind = k →
      p.snap k = (Except.ok (p.lexer.peek).1,
        { p with lexer := (((p.lexer.peek).2).next).2 }))
    ∧ ((p.lexer.peek).1.kind ≠ k →
      p.snap k = (Except.error
          (PError.new (p.lexer.peek).1 "expected one thing, found another"),
        { p with lexer := (p.lexer.peek).2 })
      ∧ ((p.snap k).2).lexer.peek.1 = (p.lexer.peek).1
      ∧ ((p.snap k).2).lexer.next.1 = (p.lexer.peek).1) := by
  rcases hpk : p.lexer.peek with ⟨t, l1⟩
  have hla : l1.lookahead = some t := by
    have h := peek_lookahead p.lexer
    rw [hpk] at h
    exact h
  have hl1 := peek_next_of_lookahead l1 t hla
  constructor
  · intro hk
    simp [ParserState.snap, hpk, hk]
    exact hk
  · intro hk
    have hsnap : p.snap k = (Except.error
        (PError.new t "expected one thing, found another"),
        { p with lexer := l1 }) := by
      simp [ParserState.snap, hpk, hk]
    refine ⟨hsnap, ?_, ?_⟩
    · rw [hsnap]
      simp [hl1.1]
    · rw [hsnap]
      simp [hl1.2]

/-- C6 witness: on the input `"x"` (whose first token is the
identifier `x`), snapping `Integer` fails and leaves `x` peekable,
while snapping `Identifier` succeeds. -/
theorem c6_snap_peeks_before_consuming_witness :
    ((ParserState.new "x".data).snap TokenType.Integer).1
      = Except.error ⟨0, 1, "expected one thing, found another"⟩
    ∧ (((ParserState.new "x".data).snap TokenType.Integer).2).lexer.peek.1
      = ⟨TokenType.Identifier, 0, "x"⟩
    ∧ ((ParserState.new "x".data).snap TokenType.Identifier).1
      = Except.ok ⟨TokenType.Identifier, 0, "x"⟩ := by
  have h1 := (c6_snap_peeks_before_consuming (ParserState.new "x".data)
    TokenType.Integer).2 (by decide)
  have h2 := (c6_snap_peeks_before_consuming (ParserState.new "x".data)
    TokenType.Identifier).1 (by decide)
  refine ⟨?_, ?_, ?_⟩
  · rw [h1.1]
    rfl
  · rw [h1.2.1]
    rfl
  · rw [h2]
    rfl

/-- Bridge from `UInt32` order (used by the core character
predicates) to `Nat` order. -/
theorem uint32_toNat_le {a b : UInt32} (h : a ≤ b) : a.toNat ≤ b.toNat := by
  rw [UInt32.le_def, BitVec.le_def] at h
  exact h

/-- The code-point ranges admitted by `is_identifier_start`. -/
theorem char_ident_start_val (c : Char) (h : is_identifier_start c = true) :
    65 ≤ c.toNat ∧ c.toNat ≤ 90 ∨ 97 ≤ c.toNat ∧ c.toNat ≤ 122 ∨ c.toNat = 95 := by
  simp [is_identifier_start, Char.isAlpha, Char.isUpper, Char.isLower] at h
  rcases h with (⟨h1, h2⟩ | ⟨h1, h2⟩) | h3
  · exact Or.inl ⟨uint32_toNat_le h1, uint32_toNat_le h2⟩
  · exact Or.inr (Or.inl ⟨uint32_toNat_le h1, uint32_toNat_le h2⟩)
  · subst h3
    exact Or.inr (Or.inr rfl)

/-- The code-point range admitted by `Char.isDigit`. -/
theorem char_digit_val (c : Char) (h : c.isDigit = true) :
    48 ≤ c.toNat ∧ c.toNat ≤ 57 := by
  simp [Char.isDigit] at h
  have g1 : (48 : Nat) ≤ c.val.toNat := uint32_toNat_le h.1
  have g2 : c.val.toNat ≤ (57 : Nat) := uint32_toNat_le h.2
  exact ⟨g1, g2⟩

/-- An identifier-start character is neither whitespace nor a digit,
so the scanner dispatches it to `scan_identifier_or_keyword`. -/
theorem ident_start_class (c : Char) (h : is_identifier_start c = true) :
    isRustWhitespace c = false ∧ c.isDigit = false := by
  have hv := char_ident_start_val c h
  simp only [Char.toNat] at hv
  constructor
  · simp only [isRustWhitespace, Char.toNat]
    simp only [Bool.or_eq_false_iff, Bool.and_eq_false_iff, decide_eq_false_iff_not,
      not_le, not_lt]
    omega
  · cases hfd : c.isDigit
    · rfl
    · have hdv := char_digit_val c hfd
      simp only [Char.toNat] at hdv
      omega

/-- A decimal digit is not a sign character. -/
theorem digit_not_sign (c : Char) (h : c.isDigit = true) :
    ¬c = '+' ∧ ¬c = '-' := by
  have hdv := char_digit_val c h
  constructor <;> intro hq <;> subst hq <;>
    exact absurd hdv (by decide)

/-- `scan_whilst` consumes nothing when the first character is
rejected. -/
theorem scanCount_stops (pred : Char → Bool) (ys : List Char)
    (hstop : ∀ c, ys.head? = some c → pred c = false) :
    scanCount pred ys = 0 := by
  cases ys with
  | nil => rfl
  | cons c cs =>
    have := hstop c rfl
    simp [scanCount, this]

/-- `scan_whilst` consumes exactly an accepted run followed by a
rejected (or absent) boundary character. -/
theorem scanCount_run (pred : Char → Bool) (xs ys : List Char)
    (hall : ∀ c ∈ xs, pred c = true)
    (hstop : ∀ c, ys.head? = some c → pred c = false) :
    scanCount pred (xs ++ ys) = xs.length := by
  induction xs with
  | nil => simpa using scanCount_stops pred ys hstop
  | cons c cs ih =>
    have hc := hall c (List.mem_cons_self c cs)
    have ihh := ih (fun d hd => hall d (List.mem_cons_of_mem c hd))
    simp [scanCount, hc, ihh]

/-- A first-match equality chain over an association table computes
the table lookup. -/
theorem kwChain_eq_kwLookup (table : List (String × TokenType)) (w : String) :
    kwChain table w = kwLookup table w := by
  induction table with
  | nil => rfl
  | cons kv tl ih =>
    obtain ⟨s, k⟩ := kv
    by_cases hws : w = s
    · simp [kwChain, kwLookup, List.find?, hws]
    · have hbeq : (w == s) = false := by
        simp [hws]
      simp [kwChain, kwLookup, List.find?, hws, hbeq] at ih ⊢
      exact ih

/-- The source's keyword match is the equality chain of the amended
table. -/
theorem keywordKind_eq_chain (w : String) :
    keywordKind w = kwChain amendedKeywordTable w := rfl

/-- C8 counterexample: `"Do"` is a maximal identifier run that is not
in the specification's 28-word keyword table, yet the scanner does not
emit an `Identifier` token for it (it emits the `Do` keyword token),
refuting the claim that every run outside the table lexes as an
identifier. -/
theorem c8_capitalised_do_counterexample :
    isIdentifierRun "Do" = true
    ∧ claimedKeywords.contains "Do" = false
    ∧ (nextRaw "Do".data 0).1.kind = TokenType.Do
    ∧ TokenType.Do ≠ TokenType.Identifier :=
  ⟨by decide, by decide, rfl, by decide⟩

/-- C8 (amended): for every maximal identifier run `w` (followed by
end-of-input or by a character that cannot extend the run), the lexer
emits one token spanning exactly `w`, whose kind is the keyword kind
the table assigns to `w` — where the table is the specification's list
*plus the capitalised `"Do"`* — and `Identifier` for every other
run. -/
theorem c8_keyword_table_amended (w : String) (rest : List Char)
    (hw : isIdentifierRun w = true)
    (hrest : ∀ c, rest.head? = some c → is_identifier_middle c = false) :
    nextRaw (w.data ++ rest) 0
      = (⟨kwLookup amendedKeywordTable w, 0, w⟩, w.data.length) := by
  obtain ⟨data⟩ := w
  cases data with
  | nil => simp [isIdentifierRun] at hw
  | cons c cs =>
    simp only [isIdentifierRun, Bool.and_eq_true, List.all_eq_true] at hw
    obtain ⟨hstart, hmid⟩ := hw
    have hcls := ident_start_class c hstart
    have hws0 : scanCount isRustWhitespace (c :: (cs ++ rest)) = 0 := by
      apply scanCount_stops
      intro d hd
      rw [List.head?_cons, Option.some.injEq] at hd
      subst hd
      exact hcls.1
    have hcount : scanCount is_identifier_middle (cs ++ rest) = cs.length :=
      scanCount_run _ cs rest (fun d hd => hmid d hd) hrest
    have htake : (List.take (1 + cs.length) (c :: (cs ++ rest))) = c :: cs := by
      rw [Nat.add_comm, List.take_succ_cons, List.take_left]
    show nextRaw (c :: cs ++ rest) 0 = _
    simp only [nextRaw, List.cons_append, List.drop_zero, hws0, Nat.add_zero,
      List.head?_cons, hcls.2, Bool.false_eq_true, if_false, hstart, if_true,
      List.drop_succ_cons, List.drop_zero, hcount, sliceStr, Nat.zero_add,
      Nat.sub_zero, htake]
    rw [keywordKind_eq_chain, kwChain_eq_kwLookup]
    simp [List.length_cons, Nat.add_comm]

/-- C8 witness: on `"Do;"` the amended table yields the `Do` keyword
token spanning the first two characters. -/
theorem c8_keyword_table_amended_witness :
    nextRaw "Do;".data 0 = (⟨TokenType.Do, 0, "Do"⟩, 2) := by
  have h := c8_keyword_table_amended "Do" [';'] (by decide) (by
    intro d hd
    rw [List.head?_cons, Option.some.injEq] at hd
    subst hd
    decide)
  exact h.trans (by decide)

/-- Inversion for `cbind` on the surviving state: either the first
step succeeded and the continuation's state survives, or the first
step returned an error and its own state is the survivor. -/
theorem stateOf_cbind {α β : Type} {x : CheckResult α}
    {f : α → TCState → CheckResult β} {st' : TCState}
    (h : (cbind x f).stateOf? = some st') :
    (∃ a st1, x = .ok a st1 ∧ (f a st1).stateOf? = some st')
    ∨ (∃ e, x = .err e st') := by
  cases x with
  | ok a st1 => exact Or.inl ⟨a, st1, rfl, h⟩
  | err e st1 =>
    simp only [cbind, CheckResult.stateOf?, Option.some.injEq] at h
    exact Or.inr ⟨e, by rw [h]⟩
  | panic m => simp [cbind, CheckResult.stateOf?] at h

/-- Inversion for `liftCheck` on the surviving state: either the pure
call succeeded, or it returned an error and the current state is the
survivor. -/
theorem stateOf_liftCheck {α β : Type} {x : Outcome SyntaxError α} {st : TCState}
    {f : α → CheckResult β} {st' : TCState}
    (h : (liftCheck x st f).stateOf? = some st') :
    (∃ a, x = .ok a ∧ (f a).stateOf? = some st') ∨ st = st' := by
  cases x with
  | ok a => exact Or.inl ⟨a, rfl, h⟩
  | err e =>
    simp only [liftCheck, CheckResult.stateOf?, Option.some.injEq] at h
    exact Or.inr h
  | panic m => simp [liftCheck, CheckResult.stateOf?] at h

/-- `Type::new` only extends the arena; the global environment is
untouched in any surviving state. -/
theorem Ty_new_globals {st : TCState} {n : Node} {st' : TCState}
    (h : (Ty.new st n).stateOf? = some st') : st'.globals = st.globals := by
  unfold Ty.new at h
  split at h
  · simp only [CheckResult.stateOf?, Option.some.injEq] at h
    rw [← h]
  · simp [CheckResult.stateOf?] at h

/-- Checking an expression never changes the checker's global
environment in any surviving state — success or error return (it only
pushes fresh type nodes). -/
theorem check_expr_globals (fuel : Nat) :
    ∀ (st : TCState) (env : Env) (e : Expr) (st' : TCState),
      (check_expr fuel st env e).stateOf? = some st' → st'.globals = st.globals := by
  induction fuel with
  | zero =>
    intro st env e st' h
    simp [check_expr, CheckResult.stateOf?] at h
  | succ n ih =>
    intro st env e st' h
    simp only [check_expr] at h
    split at h
    · exact Ty_new_globals h
    · exact Ty_new_globals h
    · rcases stateOf_cbind h with ⟨t1, st1, hx1, h⟩ | ⟨e1, hx1⟩
      · have h1 : st1.globals = st.globals :=
          ih st env _ st1 (by rw [hx1]; rfl)
        rcases stateOf_cbind h with ⟨t2, st2, hx2, h⟩ | ⟨e2, hx2⟩
        · have h2 : st2.globals = st1.globals :=
            ih st1 env _ st2 (by rw [hx2]; rfl)
          rcases stateOf_liftCheck h with ⟨a3, hx3, h⟩ | hst
          · rcases stateOf_liftCheck h with ⟨a4, hx4, h⟩ | hst
            · calc st'.globals = st2.globals := Ty_new_globals h
                _ = st1.globals := h2
                _ = st.globals := h1
            · rw [← hst, h2, h1]
          · rw [← hst, h2, h1]
        · have h2 : st'.globals = st1.globals :=
            ih st1 env _ st' (by rw [hx2]; rfl)
          rw [h2, h1]
      · exact ih st env _ st' (by rw [hx1]; rfl)
    · split at h
      · rcases stateOf_liftCheck h with ⟨a, hx1, h⟩ | hst
        · simp only [CheckResult.stateOf?, Option.some.injEq] at h
          rw [← h]
        · rw [← hst]
      · simp [CheckResult.stateOf?] at h
    · simp only [CheckResult.stateOf?, Option.some.injEq] at h
      rw [← h]
    · simp [CheckResult.stateOf?] at h

/-- Checking an assertion preserves the global environment in any
surviving state. -/
theorem check_assert_globals {fuel : Nat} {st : TCState} {env : Env} {cond : Expr}
    {st' : TCState}
    (h : (check_assert fuel st env cond).stateOf? = some st') :
    st'.globals = st.globals := by
  unfold check_assert at h
  rcases stateOf_cbind h with ⟨t, st1, hx1, h⟩ | ⟨e, hx1⟩
  · have h1 : st1.globals = st.globals :=
      check_expr_globals fuel st env cond st1 (by rw [hx1]; rfl)
    rcases stateOf_liftCheck h with ⟨a, hx2, h⟩ | hst
    · simp only [CheckResult.stateOf?, Option.some.injEq] at h
      rw [← h]
      exact h1
    · rw [← hst]
      exact h1
  · exact check_expr_globals fuel st env cond st' (by rw [hx1]; rfl)

/-- A statement loop preserves the global environment whenever the
statement checker it runs does, across success and error returns. -/
theorem runBlock_globals
    (chk : TCState → Stmt → CheckResult Unit)
    (hchk : ∀ st s st', (chk st s).stateOf? = some st' → st'.globals = st.globals) :
    ∀ (stmts : List Stmt) (st : TCState) (st' : TCState),
      (runBlock chk st stmts).stateOf? = some st' → st'.globals = st.globals := by
  intro stmts
  induction stmts with
  | nil =>
    intro st st' h
    simp only [runBlock, CheckResult.stateOf?, Option.some.injEq] at h
    rw [← h]
  | cons s rest ih =>
    intro st st' h
    simp only [runBlock] at h
    rcases stateOf_cbind h with ⟨u, st1, hx1, h⟩ | ⟨e, hx1⟩
    · calc st'.globals = st1.globals := ih st1 st' h
        _ = st.globals := hchk st s st1 (by rw [hx1]; rfl)
    · exact hchk st s st' (by rw [hx1]; rfl)

/-- Checking a statement preserves the global environment in any
surviving state. -/
theorem check_stmt_globals (fuel : Nat) :
    ∀ (st : TCState) (env : Env) (s : Stmt) (st' : TCState),
      (check_stmt fuel st env s).stateOf? = some st' → st'.globals = st.globals := by
  induction fuel with
  | zero =>
    intro st env s st' h
    simp [check_stmt, CheckResult.stateOf?] at h
  | succ n ih =>
    intro st env s st' h
    simp only [check_stmt] at h
    split at h
    · exact check_assert_globals h
    · exact runBlock_globals _ (fun st1 s1 st1' hh => ih st1 env s1 st1' hh) _ st st' h
    · simp only [liftCheck, check_skip, CheckResult.stateOf?, Option.some.injEq] at h
      rw [← h]
    · simp only [CheckResult.stateOf?, Option.some.injEq] at h
      rw [← h]
    · simp [CheckResult.stateOf?] at h

/-- C9: `check_method` binds its parameters only in a copy of the
environment: whether it returns with success or with an error, the
state it hands back has exactly the global name-to-type environment it
started from (a panic aborts the process and hands back no state at
all), so one method's parameter bindings can never leak into the
checking of any other declaration. -/
theorem c9_check_method_preserves_globals (fuel : Nat) (st : TCState)
    (name : Name) (ret : Ty) (params : List Parameter) (body : Stmt)
    (st' : TCState)
    (h : (check_method fuel st name ret params body).stateOf? = some st') :
    st'.globals = st.globals := by
  unfold check_method at h
  rcases stateOf_liftCheck h with ⟨env, hx1, h⟩ | hst
  · rcases stateOf_cbind h with ⟨u, st1, hx2, h⟩ | ⟨e, hx2⟩
    · simp only [CheckResult.stateOf?, Option.some.injEq] at h
      rw [← h]
      exact check_stmt_globals fuel st env body st1 (by rw [hx2]; rfl)
    · exact check_stmt_globals fuel st env body st' (by rw [hx2]; rfl)
  · rw [← hst]

/-- C9 witness: checking `void f(){ assert true; }` succeeds after
pushing a fresh `BoolType` node, and checking the method of
`errBodyMethodAst` returns an error after pushing a fresh `BoolType`
node; in both runs the surviving state's globals equal the original
globals. -/
theorem c9_check_method_preserves_globals_witness :
    (⟨assertTrueMethodAst ++ [Node.BoolType], Env.empty⟩ : TCState).globals
      = (⟨assertTrueMethodAst, Env.empty⟩ : TCState).globals
    ∧ (⟨errBodyMethodAst ++ [Node.BoolType], Env.empty⟩ : TCState).globals
      = (⟨errBodyMethodAst, Env.empty⟩ : TCState).globals :=
  ⟨c9_check_method_preserves_globals 3 ⟨assertTrueMethodAst, Env.empty⟩
      ⟨1⟩ ⟨0⟩ [] ⟨4⟩ ⟨assertTrueMethodAst ++ [Node.BoolType], Env.empty⟩ rfl,
   c9_check_method_preserves_globals 4 ⟨errBodyMethodAst, Env.empty⟩
      ⟨0⟩ ⟨1⟩ [] ⟨4⟩ ⟨errBodyMethodAst ++ [Node.BoolType], Env.empty⟩ rfl⟩

/-- `content.parse::<i32>()` fails on an all-digit content whose value
exceeds `i32::MAX`. -/
theorem parseI32_overflow (s : String)
    (hall : s.data.all Char.isDigit = true)
    (hbig : 2 ^ 31 ≤ digitsToNat s.data) :
    parseI32 s = none := by
  unfold parseI32
  cases hd : s.data with
  | nil => rfl
  | cons c cs =>
    rw [hd] at hall
    have hcd : c.isDigit = true := by
      simp only [List.all_cons, Bool.and_eq_true] at hall
      exact hall.1
    have hsign := digit_not_sign c hcd
    simp only [hd, if_neg hsign.1, if_neg hsign.2]
    have hne : ¬(c :: cs = []) := by simp
    rw [if_neg hne, if_pos hall]
    have hb : ((2 : Int) ^ 31) ≤ (digitsToNat (c :: cs) : Int) := by
      rw [← hd]
      exact_mod_cast hbig
    have hcond : ¬(-((2 : Int) ^ 31) ≤ (digitsToNat (c :: cs) : Int)
        ∧ (digitsToNat (c :: cs) : Int) ≤ 2 ^ 31 - 1) := fun hq => absurd hb (by omega)
    simp only [Bool.false_eq_true, if_false]
    exact if_neg hcond

/-- C10: `Token::as_int` is partial at the public interface: it aborts
(modelled `none`) whenever the token's kind is not `Integer`, and
whenever the digit content denotes a value outside the `i32` range;
yet lexing such a literal succeeds — `"2147483648"` lexes to an
`Integer` token whose conversion then aborts. -/
theorem c10_as_int_aborts :
    (∀ t : Token,
      (t.kind ≠ TokenType.Integer → t.as_int = none)
      ∧ (t.kind = TokenType.Integer → t.content.data.all Char.isDigit = true →
          2 ^ 31 ≤ digitsToNat t.content.data → t.as_int = none))
    ∧ (nextRaw "2147483648".data 0).1 = ⟨TokenType.Integer, 0, "2147483648"⟩
    ∧ Token.as_int ⟨TokenType.Integer, 0, "2147483648"⟩ = none := by
  refine ⟨fun t => ⟨?_, ?_⟩, rfl, by decide⟩
  · intro hk
    simp [Token.as_int, hk]
  · intro hk hall hbig
    rw [Token.as_int, if_pos hk]
    exact parseI32_overflow t.content hall hbig

/-- C10 witness: a non-integer token aborts `as_int`, and so does an
integer token holding ten nines. -/
theorem c10_as_int_aborts_witness :
    Token.as_int ⟨TokenType.True, 0, "true"⟩ = none
    ∧ Token.as_int ⟨TokenType.Integer, 0, "9999999999"⟩ = none := by
  constructor
  · exact (c10_as_int_aborts.1 ⟨TokenType.True, 0, "true"⟩).1 (by decide)
  · exact (c10_as_int_aborts.1 ⟨TokenType.Integer, 0, "9999999999"⟩).2 rfl
      (by decide) (by decide)

end Lil
